import Mathlib

/-!
Shallow embedding of the Roku 1PTV repair-tracking application's record model,
history lookup, dashboard aggregations, CSV export and form-save logic.

Modelling conventions:
* ISO timestamp strings that the code compares via `new Date(s).getTime()` are
  embedded as epoch milliseconds (`Int`).
* JavaScript string-keyed records built by insertion are embedded as
  association lists in insertion order; `Object.entries` / `Set` iteration
  order is first-insertion order for the (non-numeric) keys used here.
* `Array.prototype.sort` (stable, per ES2019) is embedded as
  `List.insertionSort`, which inserts each earlier element in front of the
  equal elements already placed, hence is stable.
* JavaScript numeric arithmetic is embedded exactly (over `ℚ` where division
  occurs); `Math.round x` is `round x = ⌊x + 1/2⌋`.
-/

namespace RokuRepair

/-- Checklist status values: 'Pass' | 'Conditional' | 'Fail' | 'N/A'. -/
inductive ChecklistStatus
  | Pass
  | Conditional
  | Fail
  | NA
deriving DecidableEq, Repr

/-- The 13 named checklist fields of an Intake. -/
structure Checklist where
  labels_match : ChecklistStatus
  safety_ok : ChecklistStatus
  ports_intact : ChecklistStatus
  power_symptom : ChecklistStatus
  esd_ok : ChecklistStatus
  cosmetic_backcover : ChecklistStatus
  cosmetic_screen : ChecklistStatus
  cosmetic_bezel : ChecklistStatus
  cosmetic_base : ChecklistStatus
  accessory_remote : ChecklistStatus
  accessory_stand : ChecklistStatus
  accessory_powercord : ChecklistStatus
  accessory_screws : ChecklistStatus
deriving DecidableEq, Repr

/-- Intake record (`type Intake`); `createdAt` is an ISO timestamp, embedded
as epoch milliseconds. `sizeIn : number | ''` is embedded as `Option Int`. -/
structure Intake where
  serial : String
  family : String
  model : String
  sizeIn : Option Int
  mac : Option String
  returnSource : String
  returnReason : String
  conditionIn : String
  notes : Option String
  checklist : Checklist
  photos : List String
  createdAt : Int
deriving DecidableEq, Repr

/-- Repair disposition: 'Repaired' | 'Scrap' | 'NTF' | 'BER'. -/
inductive RepairDisposition
  | Repaired
  | Scrap
  | NTF
  | BER
deriving DecidableEq, Repr

/-- Repair record (`type Repair`); `startAt`/`endAt` are ISO timestamps,
embedded as epoch milliseconds. -/
structure Repair where
  serial : String
  startAt : Int
  endAt : Option Int
  technician : Option String
  failureCode : String
  actions : List String
  disposition : RepairDisposition
  notes : Option String
  photos : List String
deriving DecidableEq, Repr

/-- Derived record `type CombinedRecord = { serial; intake?; repairs }`. -/
structure CombinedRecord where
  serial : String
  intake : Option Intake
  repairs : List Repair
deriving DecidableEq, Repr

/-- Comparator used on repairs: `(a, b) => new Date(a.startAt).getTime() -
new Date(b.startAt).getTime()` keeps `a` before `b` iff the difference is
nonpositive. -/
def startAtLe (a b : Repair) : Prop := a.startAt ≤ b.startAt

instance : DecidableRel startAtLe := fun a b => inferInstanceAs (Decidable (a.startAt ≤ b.startAt))

instance : IsTotal Repair startAtLe := ⟨fun a b => Int.le_total a.startAt b.startAt⟩

instance : IsTrans Repair startAtLe := ⟨fun _ _ _ h h' => Int.le_trans h h'⟩

/-- JavaScript `String.prototype.trim`: drop whitespace from both ends.
(Embedded over the character list so that it evaluates by kernel reduction.) -/
def jsTrim (s : String) : String :=
  ⟨((s.data.dropWhile Char.isWhitespace).reverse.dropWhile Char.isWhitespace).reverse⟩

/-- Function `History.combinedRec`: trim the query; empty → `null`; otherwise pair the
last matching intake of `intakes.slice().reverse().find(...)` with the
matching repairs sorted ascending by `startAt` (stable JS sort). -/
def combinedRec (q : String) (intakes : List Intake) (repairs : List Repair) :
    Option CombinedRecord :=
  let serial := jsTrim q
  if serial = "" then none
  else
    let intake := intakes.reverse.find? (fun i => i.serial == serial)
    let reps := (repairs.filter (fun r => r.serial == serial)).insertionSort startAtLe
    some { serial := serial, intake := intake, repairs := reps }

/-- Row of the merged history list: `{ type: 'intake' | 'repair'; when; data }`. -/
structure Row where
  when : Int
  data : Intake ⊕ Repair
deriving DecidableEq, Repr

/-- Comparator of `History.list`: ascending by `when`. -/
def whenLe (a b : Row) : Prop := a.when ≤ b.when

instance : DecidableRel whenLe := fun a b => inferInstanceAs (Decidable (a.when ≤ b.when))

/-- Function `History.list`: empty trimmed query → `[]`; otherwise the matching intakes
(keyed by `createdAt`) and matching repairs (keyed by `startAt`) concatenated
and sorted ascending by timestamp. -/
def historyRows (q : String) (intakes : List Intake) (repairs : List Repair) :
    List Row :=
  let serial := jsTrim q
  if serial = "" then []
  else
    let a := (intakes.filter (fun i => i.serial == serial)).map
      (fun i => Row.mk i.createdAt (Sum.inl i))
    let b := (repairs.filter (fun r => r.serial == serial)).map
      (fun r => Row.mk r.startAt (Sum.inr r))
    (a ++ b).insertionSort whenLe

/-- App wiring `onSaved={(i) => setIntakes((prev) => [...prev, i])}`. -/
def appendIntake (intakes : List Intake) (i : Intake) : List Intake := intakes ++ [i]

/-- App wiring `onSaved={(r) => setRepairs((prev) => [...prev, r])}`. -/
def appendRepair (repairs : List Repair) (r : Repair) : List Repair := repairs ++ [r]

/-- All-Pass checklist (the form's initial state). -/
def passChecklist : Checklist :=
  ⟨.Pass, .Pass, .Pass, .Pass, .Pass, .Pass, .Pass, .Pass, .Pass, .Pass, .Pass, .Pass, .Pass⟩

/-- Concrete intake used to evaluate the lookup on explicit inputs. -/
def sampleIntake (s : String) (t : Int) : Intake :=
  { serial := s, family := "", model := "", sizeIn := none, mac := none,
    returnSource := "", returnReason := "", conditionIn := "", notes := none,
    checklist := passChecklist, photos := [], createdAt := t }

/-- Concrete repair used to evaluate the lookup on explicit inputs. -/
def sampleRepair (s : String) (t : Int) (code : String) (d : RepairDisposition) : Repair :=
  { serial := s, startAt := t, endAt := none, technician := none,
    failureCode := code, actions := [], disposition := d, notes := none,
    photos := [] }

/-- Thirty days in milliseconds: `30 * 24 * 3600 * 1000`. -/
def WINDOW_30D : Int := 30 * 24 * 3600 * 1000

/-- Dashboard `last30`: `repairs.filter((r) => Date.now() - new
Date(r.startAt).getTime() <= 30 * 24 * 3600 * 1000)`. Only the difference is
bounded above, so a `startAt` in the future also passes the filter. -/
def last30 (now : Int) (repairs : List Repair) : List Repair :=
  repairs.filter (fun r => decide (now - r.startAt ≤ WINDOW_30D))

/-- Dashboard `repaired`: last-30-days repairs with disposition 'Repaired'. -/
def repairedCount (now : Int) (repairs : List Repair) : Nat :=
  ((last30 now repairs).filter
    (fun r => decide (r.disposition = RepairDisposition.Repaired))).length

/-- Dashboard `scrapped`: last-30-days repairs with disposition 'Scrap'. -/
def scrappedCount (now : Int) (repairs : List Repair) : Nat :=
  ((last30 now repairs).filter
    (fun r => decide (r.disposition = RepairDisposition.Scrap))).length

/-- Dashboard `yieldPct`: `repaired + scrapped ? Math.round((repaired /
(repaired + scrapped)) * 100) : 0`, with JS number arithmetic embedded as
exact rational arithmetic and `Math.round x = ⌊x + 1/2⌋`. -/
def yieldPct (now : Int) (repairs : List Repair) : ℤ :=
  let repaired := repairedCount now repairs
  let scrapped := scrappedCount now repairs
  if repaired + scrapped = 0 then 0
  else round (((repaired : ℚ) / ((repaired : ℚ) + (scrapped : ℚ))) * 100)

/-- Dashboard hold predicate: any of the five designated checklist fields
equals 'Fail'. -/
def isHold (c : Checklist) : Bool :=
  decide (c.labels_match = ChecklistStatus.Fail)
    || decide (c.safety_ok = ChecklistStatus.Fail)
    || decide (c.ports_intact = ChecklistStatus.Fail)
    || decide (c.power_symptom = ChecklistStatus.Fail)
    || decide (c.esd_ok = ChecklistStatus.Fail)

/-- Dashboard `openHolds`: count of intakes whose checklist is on hold. -/
def openHolds (intakes : List Intake) : Nat :=
  (intakes.filter (fun v => isHold v.checklist)).length

/-- Count of repairs whose `startAt` lies in `[lo, hi)`; this is the
day-bucket filter `new Date(r.startAt) >= date && new Date(r.startAt) <
dayEnd`. -/
def windowCount (repairs : List Repair) (lo hi : Int) : Nat :=
  (repairs.filter (fun r => decide (lo ≤ r.startAt) && decide (r.startAt < hi))).length

/-- Dashboard `days`: seven local-calendar-day buckets, oldest first, ending
today. `boundary d` stands for the local midnight opening the day `6 - d`
days before today (`boundary 7` opens tomorrow); the JS `Date`
mutation arithmetic producing these midnights is abstracted into the
`boundary` function. -/
def days (boundary : Nat → Int) (repairs : List Repair) : List Nat :=
  (List.range 7).map (fun d => windowCount repairs (boundary d) (boundary (d + 1)))

/-- Tally step `failCount[r.failureCode] = (failCount[r.failureCode] || 0) +
1` on an insertion-ordered association list: bump an existing key in place or
append a new key with count 1. -/
def bumpCount : List (String × Nat) → String → List (String × Nat)
  | [], k => [(k, 1)]
  | (k', n) :: t, k => if k' = k then (k', n + 1) :: t else (k', n) :: bumpCount t k

/-- Dashboard `failCount`: per-failure-code tallies in first-encounter key
order (JS object insertion order for the non-numeric codes used here). -/
def failCount (repairs : List Repair) : List (String × Nat) :=
  repairs.foldl (fun acc r => bumpCount acc r.failureCode) []

/-- Descending-count comparator `(a, b) => b[1] - a[1]`: keeps `a` before `b`
iff the difference is nonpositive, i.e. `b.2 ≤ a.2`. -/
def countGe (a b : String × Nat) : Prop := b.2 ≤ a.2

instance : DecidableRel countGe := fun a b => inferInstanceAs (Decidable (b.2 ≤ a.2))

instance : IsTotal (String × Nat) countGe := ⟨fun a b => Nat.le_total b.2 a.2⟩

instance : IsTrans (String × Nat) countGe := ⟨fun _ _ _ h h' => Nat.le_trans h' h⟩

/-- Dashboard `pareto`: `Object.entries(failCount).sort((a, b) => b[1] -
a[1]).slice(0, 6)` — stable descending sort by count, top 6. -/
def pareto (now : Int) (repairs : List Repair) : List (String × Nat) :=
  ((failCount (last30 now repairs)).insertionSort countGe).take 6

/-- Set-style insertion used by `new Set(...)`: append a key unless it is
already present. -/
def insertUnique (acc : List String) (k : String) : List String :=
  if k ∈ acc then acc else acc ++ [k]

/-- CSV header row `Array.from(new Set(rows.flatMap((r) => Object.keys(r))))`:
the union of keys across all rows in first-seen order. Flat records are
embedded as insertion-ordered association lists with stringified values. -/
def csvHeaders (rows : List (List (String × String))) : List String :=
  (rows.flatMap (fun r => r.map Prod.fst)).foldl insertUnique []

/-- Per-character expansion of `.replace(/"/g, '""')`: double each quote. -/
def escQuote (c : Char) : List Char :=
  if c = '"' then ['"', '"'] else [c]

/-- CSV escaping `(v) => '"' + String(v ?? '').replace(/"/g, '""') + '"'`. -/
def csvEscape (v : String) : String :=
  ⟨'"' :: (v.data.flatMap escQuote ++ ['"'])⟩

/-- Property access `r[h]` on a flat record, with a missing key rendering as
the empty string (`String(undefined ?? '')`). -/
def getCell (r : List (String × String)) (h : String) : String :=
  match r.find? (fun kv => kv.1 == h) with
  | some kv => kv.2
  | none => ""

/-- CSV text `[headers.join(',')].concat(rows.map((r) => headers.map((h) =>
escape(r[h])).join(','))).join('\n')`. Headers are joined unescaped; every
data cell is escaped. -/
def csvString (rows : List (List (String × String))) : String :=
  let headers := csvHeaders rows
  String.intercalate "\n"
    ((String.intercalate "," headers)
      :: rows.map (fun r =>
        String.intercalate "," (headers.map (fun h => csvEscape (getCell r h)))))

/-- Specification-side description of first-seen deduplication: keep each
key's first occurrence, in order of first appearance. -/
def firstSeen : List String → List String
  | [] => []
  | k :: t => k :: firstSeen (t.filter (fun x => decide (x ≠ k)))
termination_by l => l.length
decreasing_by
  simp only [List.length_cons]
  exact Nat.lt_succ_of_le (List.length_filter_le _ _)

/-- Sentinel option value of the multi-combo custom-entry row. -/
def CUSTOM : String := "__custom__"

/-- Multi-combo `pick`: ignore the placeholder and the custom sentinel,
append the chosen value unless already present. -/
def pickAction (value : List String) (v : String) : List String :=
  if v = "" then value
  else if v = CUSTOM then value
  else if v ∈ value then value else value ++ [v]

/-- Multi-combo `addCustom`: trim the typed value, ignore if empty, append
unless already present. -/
def addCustomAction (value : List String) (custom : String) : List String :=
  let v := jsTrim custom
  if v = "" then value
  else if v ∈ value then value else value ++ [v]

/-- Multi-combo `remove`: `value.filter((x) => x !== item)`. -/
def removeAction (value : List String) (item : String) : List String :=
  value.filter (fun x => decide (x ≠ item))

/-- Action lists reachable by the multi-select widget's own operations
starting from the repair form's initial empty list. -/
inductive ReachableActions : List String → Prop
  | empty : ReachableActions []
  | pick (l v) : ReachableActions l → ReachableActions (pickAction l v)
  | addCustom (l v) : ReachableActions l → ReachableActions (addCustomAction l v)
  | remove (l v) : ReachableActions l → ReachableActions (removeAction l v)

/-- State of the Repair form at submit time. Timestamps are already embedded
as epoch milliseconds; `endAt = none` stands for the empty optional date
field. -/
structure RepairFormState where
  serial : String
  startAt : Int
  endAt : Option Int
  technician : String
  failureCode : String
  actions : List String
  disposition : RepairDisposition
  notes : String
  photos : List String
deriving DecidableEq, Repr

/-- Record built by `RepairForm.save`: empty optional text fields become
`undefined`, and an empty failure code falls back to 'OTHER'
(`failureCode: failureCode || 'OTHER'`). -/
def repairOfForm (st : RepairFormState) : Repair :=
  { serial := st.serial
    startAt := st.startAt
    endAt := st.endAt
    technician := if st.technician = "" then none else some st.technician
    failureCode := if st.failureCode = "" then "OTHER" else st.failureCode
    actions := st.actions
    disposition := st.disposition
    notes := if st.notes = "" then none else some st.notes
    photos := st.photos }

/-- Outcome of submitting the Repair form. -/
inductive SaveOutcome
  | alert (message : String)
  | saved (r : Repair)
deriving DecidableEq, Repr

/-- Function `RepairForm.save` acting on the repairs collection: an empty
serial raises the blocking alert and the form is not submitted (`if (!serial)
return alert('Serial is required')`); otherwise `onSaved` appends the built
record. -/
def repairFormSave (st : RepairFormState) (repairs : List Repair) :
    SaveOutcome × List Repair :=
  if st.serial = "" then (SaveOutcome.alert "Serial is required", repairs)
  else (SaveOutcome.saved (repairOfForm st), appendRepair repairs (repairOfForm st))

/-- Modelled from the spec: the filter of the spec's phrase "Repairs with
startAt within the last 30×24h (rolling window from now)", read as the
two-sided window `[now - 30×24h, now]`; used only to compare the spec's
wording with the code's one-sided filter `last30`. -/
def specLast30 (now : Int) (repairs : List Repair) : List Repair :=
  repairs.filter (fun r =>
    decide (now - WINDOW_30D ≤ r.startAt) && decide (r.startAt ≤ now))

/-- Modelled from the spec: the yield percentage computed over the spec's
two-sided 30-day window instead of the code's one-sided filter. -/
def specYieldPct (now : Int) (repairs : List Repair) : ℤ :=
  let repaired := ((specLast30 now repairs).filter
    (fun r => decide (r.disposition = RepairDisposition.Repaired))).length
  let scrapped := ((specLast30 now repairs).filter
    (fun r => decide (r.disposition = RepairDisposition.Scrap))).length
  if repaired + scrapped = 0 then 0
  else round (((repaired : ℚ) / ((repaired : ℚ) + (scrapped : ℚ))) * 100)

/-- Intake with an explicit checklist, for evaluating the hold counter. -/
def intakeWithChecklist (s : String) (c : Checklist) (t : Int) : Intake :=
  { sampleIntake s t with checklist := c }

/-- Checklist failing only `safety_ok`. -/
def safetyFailChecklist : Checklist :=
  { passChecklist with safety_ok := ChecklistStatus.Fail }

/-- Checklist failing only `cosmetic_screen`. -/
def cosmeticFailChecklist : Checklist :=
  { passChecklist with cosmetic_screen := ChecklistStatus.Fail }

/-- Concrete repair-form state for evaluating `repairFormSave`. -/
def sampleFormState (serial failureCode : String) : RepairFormState :=
  { serial := serial, startAt := 0, endAt := none, technician := "",
    failureCode := failureCode, actions := [], disposition := RepairDisposition.Repaired,
    notes := "", photos := [] }

/-- Concrete calendar-day boundaries spaced 24h apart (no DST shift). -/
def dayBoundary (d : Nat) : Int := (d : Int) * 86400000

/-- Thirty-day sample: three 'Repaired' and one 'Scrap', all at `startAt 0`. -/
def yieldExample : List Repair :=
  [sampleRepair "A" 0 "X" RepairDisposition.Repaired,
   sampleRepair "B" 0 "X" RepairDisposition.Repaired,
   sampleRepair "C" 0 "X" RepairDisposition.Repaired,
   sampleRepair "D" 0 "X" RepairDisposition.Scrap]

/-- Sample with one 'Repaired' now and one 'Scrap' dated 1ms in the future. -/
def futureScrapExample : List Repair :=
  [sampleRepair "A" 0 "X" RepairDisposition.Repaired,
   sampleRepair "B" 1 "X" RepairDisposition.Scrap]

/-- Sample giving failure-code counts A:5, B:5, C:1 with A seen first. -/
def paretoExample : List Repair :=
  [sampleRepair "S1" 0 "A" RepairDisposition.Repaired,
   sampleRepair "S2" 0 "B" RepairDisposition.Repaired,
   sampleRepair "S3" 0 "A" RepairDisposition.Repaired,
   sampleRepair "S4" 0 "B" RepairDisposition.Repaired,
   sampleRepair "S5" 0 "A" RepairDisposition.Repaired,
   sampleRepair "S6" 0 "B" RepairDisposition.Repaired,
   sampleRepair "S7" 0 "A" RepairDisposition.Repaired,
   sampleRepair "S8" 0 "B" RepairDisposition.Repaired,
   sampleRepair "S9" 0 "A" RepairDisposition.Repaired,
   sampleRepair "S10" 0 "B" RepairDisposition.Repaired,
   sampleRepair "S11" 0 "C" RepairDisposition.Repaired]

/-! ## Theorems -/

/-- Finding on a reversed list returns the last entry satisfying `p`. -/
theorem find?_reverse_last_match (p : Intake → Bool) (pre post : List Intake)
    (i : Intake) (hpi : p i = true) (hpost : ∀ j ∈ post, p j = false) :
    ((pre ++ i :: post).reverse).find? p = some i := by
  have hnone : post.reverse.find? p = none :=
    List.find?_eq_none.2 (fun j hj => by simp [hpost j (List.mem_reverse.1 hj)])
  simp [List.reverse_append, List.find?_append, hnone, hpi]

/-- When the collection's `createdAt` values are nondecreasing, the entry
returned by `reverse.find?` has the largest `createdAt` among all entries
satisfying `p`. -/
theorem find?_reverse_max_createdAt (p : Intake → Bool) :
    ∀ {l : List Intake} {i : Intake}, l.reverse.find? p = some i →
      l.Pairwise (fun a b => a.createdAt ≤ b.createdAt) →
      ∀ j ∈ l, p j = true → j.createdAt ≤ i.createdAt := by
  intro l
  induction l using List.reverseRecOn with
  | nil => intro i h; simp at h
  | append_singleton l x ih =>
    intro i hfind hpair j hj hpj
    rw [List.reverse_append] at hfind
    simp only [List.reverse_cons, List.reverse_nil, List.nil_append,
      List.singleton_append] at hfind
    rw [List.find?_cons] at hfind
    rw [List.pairwise_append] at hpair
    rcases hx : p x with _ | _
    · rw [hx] at hfind
      rcases List.mem_append.1 hj with hjl | hjx
      · exact ih hfind hpair.1 j hjl hpj
      · simp only [List.mem_singleton] at hjx
        rw [hjx] at hpj
        rw [hpj] at hx
        cases hx
    · rw [hx] at hfind
      cases hfind
      rcases List.mem_append.1 hj with hjl | hjx
      · exact hpair.2.2 j hjl x (List.mem_singleton_self x)
      · simp only [List.mem_singleton] at hjx
        rw [hjx]

/-- C1 (amended): for every serial `S` that is non-empty and free of
leading/trailing whitespace, starting from empty collections, appending one
Intake and then one Repair with serial `S` yields a CombinedRecord for `S`
whose intake is that Intake and whose repair list is exactly that one
Repair. -/
theorem C1_single_append_combined (S : String) (hS : jsTrim S = S) (hne : S ≠ "")
    (i : Intake) (r : Repair) (hi : i.serial = S) (hr : r.serial = S) :
    combinedRec S (appendIntake [] i) (appendRepair [] r) =
      some ⟨S, some i, [r]⟩ := by
  simp [combinedRec, appendIntake, appendRepair, hS, hne, hi, hr, List.insertionSort]

/-- C1 witness: concrete single-append pair for serial "SN1". -/
theorem C1_witness :
    combinedRec "SN1" (appendIntake [] (sampleIntake "SN1" 100))
        (appendRepair [] (sampleRepair "SN1" 200 "OTHER" RepairDisposition.Repaired)) =
      some ⟨"SN1", some (sampleIntake "SN1" 100),
        [sampleRepair "SN1" 200 "OTHER" RepairDisposition.Repaired]⟩ :=
  C1_single_append_combined "SN1" (by decide) (by decide) _ _ rfl rfl

/-- C1 counterexample: the serial `" "` is non-empty, yet after appending an
Intake and a Repair carrying it, the history lookup for it yields no
CombinedRecord at all, because the query is trimmed to the empty string. -/
theorem C1_whitespace_counterexample :
    " " ≠ "" ∧
    combinedRec " " (appendIntake [] (sampleIntake " " 100))
      (appendRepair [] (sampleRepair " " 200 "OTHER" RepairDisposition.Repaired)) = none :=
  ⟨by decide, by decide⟩

/-- C2 (amended): for every collections state and query, the history lookup
yields, for a non-empty trimmed query, a CombinedRecord whose repair list is
the matching Repairs sorted ascending by `startAt`, and whose intake is the
last matching Intake in collection (insertion) order — which has the largest
`createdAt` among matches whenever `createdAt` is nondecreasing along the
collection; an empty (or whitespace-only) query yields empty results rather
than an error. -/
theorem C2_combined_lookup (q : String) (intakes : List Intake) (repairs : List Repair) :
    (jsTrim q = "" →
      combinedRec q intakes repairs = none ∧ historyRows q intakes repairs = [])
    ∧ (jsTrim q ≠ "" →
      ∃ rec, combinedRec q intakes repairs = some rec
        ∧ rec.serial = jsTrim q
        ∧ rec.repairs.Perm (repairs.filter (fun r => r.serial == jsTrim q))
        ∧ rec.repairs.Sorted startAtLe
        ∧ (∀ i, rec.intake = some i → i ∈ intakes ∧ i.serial = jsTrim q)
        ∧ ((∀ i ∈ intakes, i.serial ≠ jsTrim q) → rec.intake = none)
        ∧ (∀ pre i post, intakes = pre ++ i :: post → i.serial = jsTrim q →
            (∀ j ∈ post, j.serial ≠ jsTrim q) → rec.intake = some i)
        ∧ (intakes.Pairwise (fun a b => a.createdAt ≤ b.createdAt) →
            ∀ i, rec.intake = some i →
              ∀ j ∈ intakes, j.serial = jsTrim q → j.createdAt ≤ i.createdAt)) := by
  constructor
  · intro h
    constructor
    · simp [combinedRec, h]
    · simp [historyRows, h]
  · intro h
    refine ⟨⟨jsTrim q, intakes.reverse.find? (fun i => i.serial == jsTrim q),
      (repairs.filter (fun r => r.serial == jsTrim q)).insertionSort startAtLe⟩,
      ?_, rfl, ?_, ?_, ?_, ?_, ?_, ?_⟩
    · simp [combinedRec, h]
    · exact List.perm_insertionSort startAtLe _
    · exact List.sorted_insertionSort startAtLe _
    · intro i hi
      simp only at hi
      refine ⟨List.mem_reverse.1 (List.mem_of_find?_eq_some hi), ?_⟩
      have := List.find?_some hi
      simpa using this
    · intro hnone
      simp only
      exact List.find?_eq_none.2 (fun i hi => by
        simp [hnone i (List.mem_reverse.1 hi)])
    · intro pre i post heq hser hpost
      simp only [heq]
      exact find?_reverse_last_match _ pre post i (by simp [hser])
        (fun j hj => by simp [hpost j hj])
    · intro hpair i hi j hj hser
      exact find?_reverse_max_createdAt _ hi hpair j hj (by simp [hser])

/-- C2 witness: concrete lookups exercising both the empty-query branch and
the non-empty branch. -/
theorem C2_witness :
    (combinedRec "" [sampleIntake "A" 1] [] = none
      ∧ historyRows "" [sampleIntake "A" 1] [] = [])
    ∧ ∃ rec, combinedRec "A" [sampleIntake "A" 1] [] = some rec
        ∧ rec.serial = jsTrim "A" := by
  refine ⟨(C2_combined_lookup "" [sampleIntake "A" 1] []).1 (by decide), ?_⟩
  obtain ⟨rec, h1, h2, _⟩ := (C2_combined_lookup "A" [sampleIntake "A" 1] []).2 (by decide)
  exact ⟨rec, h1, h2⟩

/-- C2 counterexample: with two matching intakes stored in the order
`[createdAt 100, createdAt 50]`, the lookup pairs the serial with the
later-appended intake (createdAt 50), not the most recently created one
(createdAt 100). -/
theorem C2_createdAt_counterexample :
    combinedRec "S" [sampleIntake "S" 100, sampleIntake "S" 50] [] =
      some ⟨"S", some (sampleIntake "S" 50), []⟩
    ∧ (sampleIntake "S" 100).serial = "S"
    ∧ (sampleIntake "S" 50).createdAt < (sampleIntake "S" 100).createdAt :=
  ⟨by decide, rfl, by decide⟩

/-- Lists produced by the multi-select operations from a duplicate-free list
stay duplicate-free. -/
theorem reachableActions_nodup :
    ∀ {l : List String}, ReachableActions l → l.Nodup := by
  intro l h
  induction h with
  | empty => exact List.nodup_nil
  | pick l v _ ih =>
    simp only [pickAction]
    split
    · exact ih
    · split
      · exact ih
      · split
        · exact ih
        · have hv : v ∉ l := by assumption
          simp [List.nodup_append, ih, hv]
  | addCustom l v _ ih =>
    simp only [addCustomAction]
    split
    · exact ih
    · split
      · exact ih
      · have hv : jsTrim v ∉ l := by assumption
        simp [List.nodup_append, ih, hv]
  | remove l v _ ih => exact ih.filter _

/-- C3: the multi-select keeps set semantics over insertion order — adding a
value already present (via pick or via custom entry) is a no-op; on the
duplicate-free lists the widget maintains, removing a present value removes
exactly one matching entry and nothing else; adding "RESEAT_FFC" twice to an
empty list yields a one-element list and removing it yields the empty
list. -/
theorem C3_multiselect_set_semantics :
    (∀ (l : List String) (v : String), v ∈ l → pickAction l v = l)
    ∧ (∀ (l : List String) (v : String), jsTrim v ∈ l → addCustomAction l v = l)
    ∧ (∀ (l : List String), ReachableActions l → l.Nodup)
    ∧ (∀ (l : List String) (v : String), ReachableActions l → v ∈ l →
        (removeAction l v).length + 1 = l.length
          ∧ v ∉ removeAction l v
          ∧ (∀ w, w ≠ v → (w ∈ removeAction l v ↔ w ∈ l)))
    ∧ (pickAction (pickAction [] "RESEAT_FFC") "RESEAT_FFC" = ["RESEAT_FFC"]
        ∧ removeAction (pickAction (pickAction [] "RESEAT_FFC") "RESEAT_FFC") "RESEAT_FFC"
            = []) := by
  refine ⟨?_, ?_, fun l h => reachableActions_nodup h, ?_, by decide, by decide⟩
  · intro l v h
    simp [pickAction, h]
  · intro l v h
    simp [addCustomAction, h]
  · intro l v hreach hv
    have hnd : l.Nodup := reachableActions_nodup hreach
    have herase : removeAction l v = l.erase v := by
      rw [List.Nodup.erase_eq_filter hnd]
      apply List.filter_congr
      intro x _
      by_cases hxv : x = v <;> simp [hxv, bne]
    refine ⟨?_, ?_, ?_⟩
    · rw [herase, List.length_erase_of_mem hv]
      have : 0 < l.length := List.length_pos.2 (List.ne_nil_of_mem hv)
      omega
    · intro hmem
      rcases List.mem_filter.1 hmem with ⟨_, hval⟩
      simp at hval
    · intro w hw
      constructor
      · intro hmem
        exact (List.mem_filter.1 hmem).1
      · intro hmem
        exact List.mem_filter.2 ⟨hmem, by simpa using hw⟩

/-- C3 witness: concrete no-op add and exactly-one removal on a reachable
one-element list. -/
theorem C3_witness :
    pickAction ["RESEAT_FFC"] "RESEAT_FFC" = ["RESEAT_FFC"]
    ∧ (removeAction ["RESEAT_FFC"] "RESEAT_FFC").length + 1
        = (["RESEAT_FFC"] : List String).length := by
  have hreach : ReachableActions ["RESEAT_FFC"] := by
    have h := ReachableActions.pick [] "RESEAT_FFC" ReachableActions.empty
    have he : pickAction [] "RESEAT_FFC" = ["RESEAT_FFC"] := by decide
    rwa [he] at h
  exact ⟨C3_multiselect_set_semantics.1 _ _ (by decide),
    (C3_multiselect_set_semantics.2.2.2.1 ["RESEAT_FFC"] "RESEAT_FFC" hreach (by decide)).1⟩

/-- C5: the open-holds counter counts exactly the intakes in which at least
one of the five designated checklist fields (labels_match, safety_ok,
ports_intact, power_symptom, esd_ok) equals 'Fail'; an intake failing only
`safety_ok` contributes exactly 1 and an intake failing only
`cosmetic_screen` contributes 0. -/
theorem C5_openHolds_characterization :
    (∀ intakes : List Intake, openHolds intakes =
      (intakes.filter (fun v =>
        decide (v.checklist.labels_match = ChecklistStatus.Fail
          ∨ v.checklist.safety_ok = ChecklistStatus.Fail
          ∨ v.checklist.ports_intact = ChecklistStatus.Fail
          ∨ v.checklist.power_symptom = ChecklistStatus.Fail
          ∨ v.checklist.esd_ok = ChecklistStatus.Fail))).length)
    ∧ (∀ (l : List Intake) (s : String) (t : Int),
        openHolds (intakeWithChecklist s safetyFailChecklist t :: l) = openHolds l + 1)
    ∧ (∀ (l : List Intake) (s : String) (t : Int),
        openHolds (intakeWithChecklist s cosmeticFailChecklist t :: l) = openHolds l) := by
  refine ⟨?_, ?_, ?_⟩
  · intro intakes
    unfold openHolds
    congr 1
    apply List.filter_congr
    intro x _
    rw [Bool.eq_iff_iff]
    simp only [isHold, Bool.or_eq_true, decide_eq_true_eq]
    tauto
  · intro l s t
    simp [openHolds, List.filter_cons, isHold, intakeWithChecklist, safetyFailChecklist,
      passChecklist, sampleIntake, Nat.add_comm]
  · intro l s t
    simp [openHolds, List.filter_cons, isHold, intakeWithChecklist, cosmeticFailChecklist,
      passChecklist, sampleIntake]

/-- C9: submitting the Repair form with an empty serial surfaces the blocking
alert 'Serial is required' and the form is not submitted — no record is
appended and the repairs collection is returned unchanged. -/
theorem C9_empty_serial_blocks (st : RepairFormState) (repairs : List Repair)
    (h : st.serial = "") :
    repairFormSave st repairs = (SaveOutcome.alert "Serial is required", repairs) := by
  simp [repairFormSave, h]

/-- C9 witness: a concrete form state with an empty serial. -/
theorem C9_witness :
    repairFormSave (sampleFormState "" "PSU_NO_POWER")
        [sampleRepair "A" 0 "X" RepairDisposition.Repaired] =
      (SaveOutcome.alert "Serial is required",
        [sampleRepair "A" 0 "X" RepairDisposition.Repaired]) :=
  C9_empty_serial_blocks (sampleFormState "" "PSU_NO_POWER")
    [sampleRepair "A" 0 "X" RepairDisposition.Repaired] rfl

/-- C10: a successful Repair-form save appends a record whose failureCode is
never empty — an empty failure-code input is stored as 'OTHER'. -/
theorem C10_failureCode_fallback (st : RepairFormState) (repairs : List Repair)
    (h : st.serial ≠ "") :
    (repairFormSave st repairs).2 = repairs ++ [repairOfForm st]
    ∧ (repairOfForm st).failureCode ≠ ""
    ∧ (st.failureCode = "" → (repairOfForm st).failureCode = "OTHER") := by
  refine ⟨by simp [repairFormSave, appendRepair, h], ?_, ?_⟩
  · by_cases hf : st.failureCode = "" <;> simp [repairOfForm, hf]
  · intro hf
    simp [repairOfForm, hf]

/-- Rounding a percentage `r / (r + s) * 100` equals the integer
`(200 r + (r + s)) / (2 (r + s))` by floor division. -/
theorem round_div_closed (r s : ℕ) (h : r + s ≠ 0) :
    round (((r : ℚ) / ((r : ℚ) + (s : ℚ))) * 100) =
      ((200 * r + (r + s)) / (2 * (r + s)) : ℕ) := by
  have hden : ((r : ℚ) + (s : ℚ)) ≠ 0 := by
    have : ((r + s : ℕ) : ℚ) ≠ 0 := Nat.cast_ne_zero.2 h
    push_cast at this
    exact this
  rw [round_eq]
  have key : (r : ℚ) / ((r : ℚ) + (s : ℚ)) * 100 + 1 / 2 =
      (((200 * r + (r + s) : ℕ) : ℤ) : ℚ) / (((2 * (r + s) : ℕ)) : ℚ) := by
    push_cast
    field_simp
    ring
  rw [key]
  rw [Rat.floor_intCast_div_natCast ((200 * r + (r + s) : ℕ) : ℤ) (2 * (r + s))]
  exact (Int.natCast_div _ _).symm

/-- The percentage floor-division closed form never exceeds 100. -/
theorem pct_closed_le_100 (r s : ℕ) (h : r + s ≠ 0) :
    (200 * r + (r + s)) / (2 * (r + s)) ≤ 100 := by
  have hpos : 0 < 2 * (r + s) := by omega
  have := (Nat.div_lt_iff_lt_mul hpos).2
    (show 200 * r + (r + s) < 101 * (2 * (r + s)) by omega)
  omega

/-- Closed integer form of the dashboard yield percentage. -/
theorem yieldPct_closed (now : Int) (repairs : List Repair)
    (h : repairedCount now repairs + scrappedCount now repairs ≠ 0) :
    yieldPct now repairs =
      (((200 * repairedCount now repairs
          + (repairedCount now repairs + scrappedCount now repairs))
        / (2 * (repairedCount now repairs + scrappedCount now repairs)) : ℕ) : ℤ) := by
  simp only [yieldPct]
  rw [if_neg h]
  exact round_div_closed _ _ h

/-- Closed integer form of the spec-side yield percentage. -/
theorem specYieldPct_closed (now : Int) (repairs : List Repair)
    (h : ((specLast30 now repairs).filter
          (fun r => decide (r.disposition = RepairDisposition.Repaired))).length
        + ((specLast30 now repairs).filter
          (fun r => decide (r.disposition = RepairDisposition.Scrap))).length ≠ 0) :
    specYieldPct now repairs =
      (((200 * ((specLast30 now repairs).filter
            (fun r => decide (r.disposition = RepairDisposition.Repaired))).length
          + (((specLast30 now repairs).filter
              (fun r => decide (r.disposition = RepairDisposition.Repaired))).length
            + ((specLast30 now repairs).filter
              (fun r => decide (r.disposition = RepairDisposition.Scrap))).length))
        / (2 * (((specLast30 now repairs).filter
              (fun r => decide (r.disposition = RepairDisposition.Repaired))).length
            + ((specLast30 now repairs).filter
              (fun r => decide (r.disposition = RepairDisposition.Scrap))).length)) : ℕ) : ℤ) := by
  simp only [specYieldPct]
  rw [if_neg h]
  exact round_div_closed _ _ h

/-- C4 (amended): over the code's 30-day filter (which bounds only how far in
the past `startAt` may lie, so future-dated repairs are included), the yield is
`round(100·repaired/(repaired+scrapped))`, equal to the integer closed form
`(200·repaired + total)/(2·total)`; it is 0 when the denominator is 0, always
lies in [0, 100], and 3 'Repaired' plus 1 'Scrap' give 75. -/
theorem C4_yield_formula (now : Int) (repairs : List Repair) :
    (repairedCount now repairs + scrappedCount now repairs = 0 →
      yieldPct now repairs = 0)
    ∧ (repairedCount now repairs + scrappedCount now repairs ≠ 0 →
        yieldPct now repairs =
          round ((100 * (repairedCount now repairs : ℚ)) /
            ((repairedCount now repairs : ℚ) + (scrappedCount now repairs : ℚ)))
        ∧ yieldPct now repairs =
          (((200 * repairedCount now repairs
              + (repairedCount now repairs + scrappedCount now repairs))
            / (2 * (repairedCount now repairs + scrappedCount now repairs)) : ℕ) : ℤ))
    ∧ 0 ≤ yieldPct now repairs
    ∧ yieldPct now repairs ≤ 100
    ∧ yieldPct 0 yieldExample = 75 := by
  have hbounds : 0 ≤ yieldPct now repairs ∧ yieldPct now repairs ≤ 100 := by
    by_cases h : repairedCount now repairs + scrappedCount now repairs = 0
    · simp [yieldPct, h]
    · rw [yieldPct_closed now repairs h]
      constructor
      · exact Int.natCast_nonneg _
      · exact_mod_cast pct_closed_le_100 _ _ h
  refine ⟨?_, ?_, hbounds.1, hbounds.2, ?_⟩
  · intro h
    simp [yieldPct, h]
  · intro h
    refine ⟨?_, yieldPct_closed now repairs h⟩
    simp only [yieldPct]
    rw [if_neg h]
    congr 1
    ring
  · rw [yieldPct_closed 0 yieldExample (by decide)]
    decide

/-- C4 witness: concrete 3-Repaired-1-Scrap input exercising the non-zero
branch of the yield formula. -/
theorem C4_witness :
    yieldPct 0 yieldExample =
      round ((100 * (repairedCount 0 yieldExample : ℚ)) /
        ((repairedCount 0 yieldExample : ℚ) + (scrappedCount 0 yieldExample : ℚ)))
    ∧ yieldPct 0 yieldExample = 75 :=
  ⟨((C4_yield_formula 0 yieldExample).2.1 (by decide)).1,
    (C4_yield_formula 0 yieldExample).2.2.2.2⟩

/-- C4 counterexample: with `now = 0`, a 'Scrap' repair dated 1 ms in the
future passes the code's filter (`now - startAt ≤ 30×24h`), so the code
reports 50, while the spec's window "startAt within the last 30×24h" excludes
it, giving 100. -/
theorem C4_future_window_counterexample :
    0 < (sampleRepair "B" 1 "X" RepairDisposition.Scrap).startAt
    ∧ yieldPct 0 futureScrapExample = 50
    ∧ specYieldPct 0 futureScrapExample = 100
    ∧ yieldPct 0 futureScrapExample ≠ specYieldPct 0 futureScrapExample := by
  have h1 : yieldPct 0 futureScrapExample = 50 := by
    rw [yieldPct_closed 0 futureScrapExample (by decide)]
    decide
  have h2 : specYieldPct 0 futureScrapExample = 100 := by
    rw [specYieldPct_closed 0 futureScrapExample (by decide)]
    decide
  exact ⟨by decide, h1, h2, by rw [h1, h2]; decide⟩

/-- Bucket counting distributes over a cons. -/
theorem windowCount_cons (r : Repair) (t : List Repair) (lo hi : Int) :
    windowCount (r :: t) lo hi =
      (if lo ≤ r.startAt ∧ r.startAt < hi then 1 else 0) + windowCount t lo hi := by
  by_cases h1 : lo ≤ r.startAt <;> by_cases h2 : r.startAt < hi <;>
    (simp [windowCount, List.filter_cons, h1, h2]; try omega)

/-- Empty bucket: no `startAt` lies in `[a, a)`. -/
theorem windowCount_self (repairs : List Repair) (a : Int) :
    windowCount repairs a a = 0 := by
  induction repairs with
  | nil => rfl
  | cons r t ih =>
    rw [windowCount_cons, ih]
    split <;> omega

/-- Adjacent buckets add up to the enclosing window. -/
theorem windowCount_split (repairs : List Repair) (lo mid hi : Int)
    (h1 : lo ≤ mid) (h2 : mid ≤ hi) :
    windowCount repairs lo hi = windowCount repairs lo mid + windowCount repairs mid hi := by
  induction repairs with
  | nil => rfl
  | cons r t ih =>
    rw [windowCount_cons, windowCount_cons, windowCount_cons, ih]
    by_cases ha : lo ≤ r.startAt <;> by_cases hb : r.startAt < mid <;>
      by_cases hc : mid ≤ r.startAt <;> by_cases hd : r.startAt < hi <;>
        simp [ha, hb, hc, hd] <;> omega

/-- Consecutive day buckets over monotone boundaries sum to one window. -/
theorem sum_consecutive_windowCounts (repairs : List Repair) (boundary : Nat → Int) :
    ∀ n, (∀ i j, i ≤ j → j ≤ n → boundary i ≤ boundary j) →
      ((List.range n).map
        (fun d => windowCount repairs (boundary d) (boundary (d + 1)))).sum
        = windowCount repairs (boundary 0) (boundary n)
  | 0, _ => by simp [windowCount_self]
  | (n + 1), h => by
    rw [List.range_succ, List.map_append, List.sum_append]
    simp only [List.map_cons, List.map_nil, List.sum_cons, List.sum_nil, Nat.add_zero]
    rw [sum_consecutive_windowCounts repairs boundary n
      (fun i j hij hj => h i j hij (Nat.le_succ_of_le hj))]
    rw [windowCount_split repairs (boundary 0) (boundary n) (boundary (n + 1))
      (h 0 n (Nat.zero_le n) (Nat.le_succ n)) (h n (n + 1) (Nat.le_succ n) (Nat.le_refl _))]

/-- C6: when the eight day boundaries are monotone (as calendar midnights
are), the seven histogram bucket counts sum to the count of repairs whose
`startAt` lies in the trailing 7-day window ending today. -/
theorem C6_histogram_sum (boundary : Nat → Int) (repairs : List Repair)
    (hmono : ∀ i j, i ≤ j → j ≤ 7 → boundary i ≤ boundary j) :
    (days boundary repairs).sum = windowCount repairs (boundary 0) (boundary 7) :=
  sum_consecutive_windowCounts repairs boundary 7 hmono

/-- C6 witness: two concrete repairs, one inside the 7-day window and one
just past its end. -/
theorem C6_witness :
    (days dayBoundary
        [sampleRepair "A" 100 "X" RepairDisposition.Repaired,
         sampleRepair "B" 604800001 "X" RepairDisposition.Scrap]).sum
      = windowCount
          [sampleRepair "A" 100 "X" RepairDisposition.Repaired,
           sampleRepair "B" 604800001 "X" RepairDisposition.Scrap]
          (dayBoundary 0) (dayBoundary 7)
    ∧ windowCount
        [sampleRepair "A" 100 "X" RepairDisposition.Repaired,
         sampleRepair "B" 604800001 "X" RepairDisposition.Scrap]
        (dayBoundary 0) (dayBoundary 7) = 1 :=
  ⟨C6_histogram_sum dayBoundary _
      (fun i j hij _ => by simp only [dayBoundary]; omega),
    by decide⟩

/-- C10 witness: a concrete save with serial "SN1" and empty failure code. -/
theorem C10_witness :
    (repairFormSave (sampleFormState "SN1" "") []).2 = [] ++ [repairOfForm (sampleFormState "SN1" "")]
    ∧ (repairOfForm (sampleFormState "SN1" "")).failureCode ≠ ""
    ∧ ((sampleFormState "SN1" "").failureCode = ""
        → (repairOfForm (sampleFormState "SN1" "")).failureCode = "OTHER") :=
  C10_failureCode_fallback (sampleFormState "SN1" "") [] (by decide)

/-! ### First-seen order, tallies and the CSV header -/

theorem mem_firstSeen : ∀ (l : List String) (x : String), x ∈ firstSeen l ↔ x ∈ l := by
  intro l
  induction l using firstSeen.induct with
  | case1 => intro x; simp [firstSeen]
  | case2 k t ih =>
    intro x
    rw [firstSeen]
    simp only [List.mem_cons, ih, List.mem_filter, decide_eq_true_eq]
    constructor
    · rintro (rfl | ⟨hx, _⟩)
      · exact Or.inl rfl
      · exact Or.inr hx
    · rintro (rfl | hx)
      · exact Or.inl rfl
      · by_cases hxk : x = k
        · exact Or.inl hxk
        · exact Or.inr ⟨hx, hxk⟩

theorem nodup_firstSeen : ∀ l : List String, (firstSeen l).Nodup := by
  intro l
  induction l using firstSeen.induct with
  | case1 => simp [firstSeen]
  | case2 k t ih =>
    rw [firstSeen]
    refine List.nodup_cons.2 ⟨?_, ih⟩
    intro hk
    have := (mem_firstSeen _ k).1 hk
    rcases List.mem_filter.1 this with ⟨_, hker⟩
    simp at hker

theorem filter_notMem_append_singleton (t acc : List String) (k : String) :
    t.filter (fun x => decide (x ∉ acc ++ [k]))
      = (t.filter (fun x => decide (x ∉ acc))).filter (fun x => decide (x ≠ k)) := by
  rw [List.filter_filter]
  apply List.filter_congr
  intro x _
  rw [Bool.eq_iff_iff]
  simp only [decide_eq_true_eq, Bool.and_eq_true, List.mem_append, List.mem_singleton]
  tauto

theorem foldl_insertUnique :
    ∀ (l : List String) (acc : List String),
      l.foldl insertUnique acc = acc ++ firstSeen (l.filter (fun k => decide (k ∉ acc)))
  | [], acc => by simp [firstSeen]
  | k :: t, acc => by
    rw [List.foldl_cons]
    by_cases hk : k ∈ acc
    · have h1 : insertUnique acc k = acc := by simp [insertUnique, hk]
      rw [h1, foldl_insertUnique t acc]
      have h2 : (k :: t).filter (fun x => decide (x ∉ acc))
          = t.filter (fun x => decide (x ∉ acc)) := by
        simp [List.filter_cons, hk]
      rw [h2]
    · have h1 : insertUnique acc k = acc ++ [k] := by simp [insertUnique, hk]
      rw [h1, foldl_insertUnique t (acc ++ [k])]
      have h2 : (k :: t).filter (fun x => decide (x ∉ acc))
          = k :: t.filter (fun x => decide (x ∉ acc)) := by
        simp [List.filter_cons, hk]
      rw [h2, firstSeen, List.append_assoc, List.singleton_append]
      rw [filter_notMem_append_singleton]

theorem bumpCount_map_fst : ∀ (acc : List (String × Nat)) (k : String),
    (bumpCount acc k).map Prod.fst = insertUnique (acc.map Prod.fst) k
  | [], k => by simp [bumpCount, insertUnique]
  | (k', n) :: t, k => by
    by_cases h : k' = k
    · subst h
      simp [bumpCount, insertUnique]
    · have hrec := bumpCount_map_fst t k
      simp only [bumpCount, if_neg h, List.map_cons, hrec, insertUnique]
      by_cases hk : k ∈ t.map Prod.fst
      · rw [if_pos hk, if_pos (List.mem_cons.2 (Or.inr hk))]
      · rw [if_neg hk, if_neg (by
          intro hmem
          rcases List.mem_cons.1 hmem with h1 | h1
          · exact h h1.symm
          · exact hk h1), List.cons_append]

theorem bumpCount_of_not_mem : ∀ (acc : List (String × Nat)) (k : String),
    k ∉ acc.map Prod.fst → bumpCount acc k = acc ++ [(k, 1)]
  | [], _, _ => rfl
  | (k', n) :: t, k, h => by
    have h1 : k' ≠ k := by
      intro e
      exact h (by simp [e])
    simp only [bumpCount, if_neg h1, List.cons_append, List.cons.injEq, true_and]
    exact bumpCount_of_not_mem t k (fun hm => h (by simp [hm]))

theorem bump_map_shift (t : List String) (k : String) :
    ∀ (acc : List (String × Nat)), (acc.map Prod.fst).Nodup → k ∈ acc.map Prod.fst →
      (bumpCount acc k).map (fun p => (p.1, p.2 + t.count p.1))
        = acc.map (fun p => (p.1, p.2 + (k :: t).count p.1))
  | [], _, hmem => by simp at hmem
  | (k', n) :: rest, hnd, hmem => by
    simp only [List.map_cons, List.nodup_cons] at hnd
    by_cases h : k' = k
    · subst h
      simp only [bumpCount, eq_self_iff_true, if_true, List.map_cons]
      rw [List.count_cons_self]
      rw [show n + (List.count k' t + 1) = n + 1 + List.count k' t from by omega]
      congr 1
      apply List.map_congr_left
      intro p hp
      have hne : p.1 ≠ k' := by
        intro e
        exact hnd.1 (by rw [← e]; exact List.mem_map_of_mem Prod.fst hp)
      simp [List.count_cons, hne]
    · simp only [bumpCount, if_neg h, List.map_cons]
      have hmem' : k ∈ rest.map Prod.fst := by
        rcases List.mem_cons.1 hmem with h1 | h1
        · exact absurd h1.symm h
        · exact h1
      rw [bump_map_shift t k rest hnd.2 hmem']
      congr 1
      simp [List.count_cons, Ne.symm h]

theorem foldl_bumpCount :
    ∀ (codes : List String) (acc : List (String × Nat)),
      (acc.map Prod.fst).Nodup →
      codes.foldl bumpCount acc =
        acc.map (fun p => (p.1, p.2 + codes.count p.1))
          ++ (firstSeen (codes.filter (fun c => decide (c ∉ acc.map Prod.fst)))).map
              (fun c => (c, codes.count c))
  | [], acc, _ => by simp [firstSeen]
  | k :: t, acc, hnd => by
    rw [List.foldl_cons]
    by_cases hk : k ∈ acc.map Prod.fst
    · have hnd' : ((bumpCount acc k).map Prod.fst).Nodup := by
        rw [bumpCount_map_fst]
        simpa [insertUnique, hk] using hnd
      rw [foldl_bumpCount t (bumpCount acc k) hnd']
      have hkeys : (bumpCount acc k).map Prod.fst = acc.map Prod.fst := by
        rw [bumpCount_map_fst]
        simp [insertUnique, hk]
      rw [hkeys, bump_map_shift t k acc hnd hk]
      have hfil : (k :: t).filter (fun c => decide (c ∉ acc.map Prod.fst))
          = t.filter (fun c => decide (c ∉ acc.map Prod.fst)) := by
        simp [List.filter_cons, hk]
      rw [hfil]
      congr 1
      apply List.map_congr_left
      intro c hc
      have hmem : c ∈ t.filter (fun c => decide (c ∉ acc.map Prod.fst)) :=
        (mem_firstSeen _ c).1 hc
      have hcnot : c ∉ acc.map Prod.fst := by
        rcases List.mem_filter.1 hmem with ⟨_, hdec⟩
        simpa using hdec
      have hck : c ≠ k := fun e => hcnot (e ▸ hk)
      simp [List.count_cons, hck]
    · have hnd' : ((bumpCount acc k).map Prod.fst).Nodup := by
        rw [bumpCount_map_fst]
        simp [insertUnique, hk, List.nodup_append, hnd]
      rw [foldl_bumpCount t (bumpCount acc k) hnd']
      rw [bumpCount_of_not_mem acc k hk]
      have hkeys : (acc ++ [(k, 1)]).map Prod.fst = acc.map Prod.fst ++ [k] := by simp
      rw [hkeys, List.map_append]
      have hfil : (k :: t).filter (fun c => decide (c ∉ acc.map Prod.fst))
          = k :: t.filter (fun c => decide (c ∉ acc.map Prod.fst)) := by
        simp [List.filter_cons, hk]
      rw [hfil, firstSeen, List.map_cons]
      rw [filter_notMem_append_singleton]
      simp only [List.map_cons, List.map_nil, List.append_assoc, List.singleton_append,
        List.cons_append, List.nil_append]
      congr 1
      · apply List.map_congr_left
        intro p hp
        have hne : p.1 ≠ k := by
          intro e
          exact hk (by rw [← e]; exact List.mem_map_of_mem Prod.fst hp)
        simp [List.count_cons, hne]
      · dsimp only
        rw [List.cons.injEq]
        refine ⟨?_, ?_⟩
        · simp only [List.count_cons_self, Prod.mk.injEq, true_and]
          omega
        · apply List.map_congr_left
          intro c hc
          have hmem : c ∈ (t.filter (fun c => decide (c ∉ acc.map Prod.fst))).filter
              (fun x => decide (x ≠ k)) := (mem_firstSeen _ c).1 hc
          have hck : c ≠ k := by
            rcases List.mem_filter.1 hmem with ⟨_, hdec⟩
            simpa using hdec
          simp [List.count_cons, hck]

/-- Tallies over the last-30-days repairs equal the counts of each code in
first-encounter order. -/
theorem failCount_eq (l : List Repair) :
    failCount l = (firstSeen (l.map (fun r => r.failureCode))).map
      (fun c => (c, (l.map (fun r => r.failureCode)).count c)) := by
  have h1 : failCount l = (l.map (fun r => r.failureCode)).foldl bumpCount [] := by
    rw [List.foldl_map]
    rfl
  rw [h1, foldl_bumpCount (l.map (fun r => r.failureCode)) [] (by simp)]
  simp

/-- C7 (amended): over the code's 30-day filter (future `startAt` included),
the Pareto view lists at most 6 entries, sorted descending by count; each
listed pair carries the exact number of matching repairs (and is positive);
the tally keys are in first-encounter order, the stable sort preserves the
relative order of any two tally entries whose counts do not force a swap, and
the A:5/B:5/C:1 example keeps A before B. -/
theorem C7_pareto_top6 (now : Int) (repairs : List Repair) :
    (pareto now repairs).length ≤ 6
    ∧ (pareto now repairs).Sorted countGe
    ∧ (∀ p, p ∈ pareto now repairs →
        p.2 = ((last30 now repairs).filter
          (fun r => decide (r.failureCode = p.1))).length
        ∧ 0 < p.2)
    ∧ (failCount (last30 now repairs)).map Prod.fst
        = firstSeen ((last30 now repairs).map (fun r => r.failureCode))
    ∧ (∀ p q : String × Nat,
        List.Sublist [p, q] (failCount (last30 now repairs)) → q.2 ≤ p.2 →
        List.Sublist [p, q] ((failCount (last30 now repairs)).insertionSort countGe))
    ∧ pareto 0 paretoExample = [("A", 5), ("B", 5), ("C", 1)] := by
  refine ⟨?_, ?_, ?_, ?_, ?_, by decide⟩
  · exact List.length_take_le _ _
  · exact ((List.sorted_insertionSort countGe _).sublist (List.take_sublist _ _))
  · intro p hp
    have hp1 : p ∈ (failCount (last30 now repairs)).insertionSort countGe :=
      (List.take_sublist _ _).subset hp
    have hp2 : p ∈ failCount (last30 now repairs) := (List.mem_insertionSort countGe).1 hp1
    rw [failCount_eq] at hp2
    rcases List.mem_map.1 hp2 with ⟨c, hc, hpe⟩
    have hmemc : c ∈ (last30 now repairs).map (fun r => r.failureCode) :=
      (mem_firstSeen _ c).1 hc
    subst hpe
    constructor
    · show ((last30 now repairs).map (fun r => r.failureCode)).count c = _
      rw [List.count_eq_countP, List.countP_map, List.countP_eq_length_filter]
      congr 1
    · exact List.count_pos_iff.2 hmemc
  · rw [failCount_eq, List.map_map]
    exact (List.map_congr_left (fun c _ => rfl)).trans (List.map_id _)
  · intro p q hsub hle
    exact List.pair_sublist_insertionSort hle hsub

/-- C7 witness: concrete tie A:5/B:5 whose order survives the stable sort,
and the exact count of code "A". -/
theorem C7_witness :
    ((("A", 5) : String × Nat).2 = ((last30 0 paretoExample).filter
        (fun r => decide (r.failureCode = ("A", 5).1))).length
      ∧ 0 < (("A", 5) : String × Nat).2)
    ∧ List.Sublist [("A", 5), ("B", 5)]
        ((failCount (last30 0 paretoExample)).insertionSort countGe) :=
  ⟨(C7_pareto_top6 0 paretoExample).2.2.1 ("A", 5) (by decide),
    (C7_pareto_top6 0 paretoExample).2.2.2.2.1 ("A", 5) ("B", 5) (by decide) (by decide)⟩

/-- C7 counterexample: with `now = 0` a repair dated 1 ms in the future is
outside any 30-day window ending now (the spec-side filter is empty), yet the
code's Pareto view counts it. -/
theorem C7_future_window_counterexample :
    pareto 0 [sampleRepair "F" 1 "A" RepairDisposition.Repaired] = [("A", 1)]
    ∧ specLast30 0 [sampleRepair "F" 1 "A" RepairDisposition.Repaired] = [] :=
  ⟨by decide, by decide⟩

/-- C8: the CSV headers are the union of all row keys in first-seen order
(duplicate-free); a key missing from a row renders as the empty string; data
values are quoted with inner quotes doubled; and the rows
`[{a:1, b:2}, {a:3}]` export with header `a,b` and second data row
`"3",""`. -/
theorem C8_csv_export (rows : List (List (String × String))) :
    csvHeaders rows = firstSeen (rows.flatMap (fun r => r.map Prod.fst))
    ∧ (csvHeaders rows).Nodup
    ∧ (∀ k, k ∈ csvHeaders rows ↔ ∃ r ∈ rows, k ∈ r.map Prod.fst)
    ∧ (∀ (r : List (String × String)) (k : String),
        k ∉ r.map Prod.fst → getCell r k = "")
    ∧ csvEscape "a\"b" = "\"a\"\"b\""
    ∧ csvString [[("a", "1"), ("b", "2")], [("a", "3")]]
        = "a,b\n\"1\",\"2\"\n\"3\",\"\"" := by
  have hhead : csvHeaders rows = firstSeen (rows.flatMap (fun r => r.map Prod.fst)) := by
    unfold csvHeaders
    rw [foldl_insertUnique]
    simp
  refine ⟨hhead, ?_, ?_, ?_, by decide, by decide⟩
  · rw [hhead]
    exact nodup_firstSeen _
  · intro k
    rw [hhead, mem_firstSeen, List.mem_flatMap]
  · intro r k hk
    have hnone : r.find? (fun kv => kv.1 == k) = none := by
      apply List.find?_eq_none.2
      intro kv hkv
      simp only [beq_iff_eq]
      intro e
      exact hk (by rw [← e]; exact List.mem_map_of_mem Prod.fst hkv)
    unfold getCell
    rw [hnone]

/-- C8 witness: the missing key "b" of the second example row renders as the
empty string, and the example CSV text matches. -/
theorem C8_witness :
    getCell [("a", "3")] "b" = ""
    ∧ csvString [[("a", "1"), ("b", "2")], [("a", "3")]]
        = "a,b\n\"1\",\"2\"\n\"3\",\"\"" :=
  ⟨(C8_csv_export []).2.2.2.1 [("a", "3")] "b" (by decide),
    (C8_csv_export [[("a", "1"), ("b", "2")], [("a", "3")]]).2.2.2.2.2⟩

end RokuRepair
